import Mathlib

/-!
Verification of the dependency-translation and requirement-merging core of
the pixi-build-ros backend (`src/backends/pixi-build-ros/src/pixi_build_ros`).
Pure functions of the Python source are embedded as Lean definitions; the
stateful in-place list mutations of the source are made explicit by
returning the mutated values.
-/

/-- Modelled from the spec: a Package Requirement is either a concrete
package name or a template (parametrized expression).  The concrete class
`pixi_build_backend.types.item.ItemPackageDependency` is an FFI wrapper whose
source is not part of this repository snapshot; the spec (section 3) gives
exactly this two-case representation, with `concrete` set on concrete items
and `template` set on template items. -/
inductive ItemPackageDependency where
  | concrete (package_name : String)
  | template (text : String)
deriving DecidableEq, Repr

/-- `item.concrete.package_name` when `item.concrete` is set, else `none`
(mirrors the Python truthiness test `if i.concrete`). -/
def ItemPackageDependency.concreteName? : ItemPackageDependency → Option String
  | .concrete n => some n
  | .template _ => none

/-- The Python expression `str(item.template)`: `"None"` for a concrete item
(whose `template` attribute is `None`), and the rendered text for a template
item. -/
def ItemPackageDependency.templateStr : ItemPackageDependency → String
  | .concrete _ => "None"
  | .template t => t

/-- `ConditionalRequirements`: three ordered requirement lists keyed by
build/host/run.  Modelled from the spec: the concrete class
`pixi_build_backend.types.intermediate_recipe.ConditionalRequirements` is an
FFI wrapper whose source is not part of this repository snapshot; the spec
(section 3, Requirement Set) describes it as three ordered sequences of
Package Requirement keyed by build, host, run, so the three categories are
modelled as three fields with value semantics. -/
structure ConditionalRequirements where
  build : List ItemPackageDependency := []
  host : List ItemPackageDependency := []
  run : List ItemPackageDependency := []
deriving DecidableEq, Repr

/-- One iteration of the loop body of `merge_unique_items`
(`ros_generator.py`, lines 165-171).  `result` aliases `model` in the
source, so the second membership test (over `model`) sees the append made by
the first test; this is reflected by testing the template strings against
`result1`. -/
def merge_step (result : List ItemPackageDependency) (item : ItemPackageDependency) :
    List ItemPackageDependency :=
  let package_names := result.filterMap ItemPackageDependency.concreteName?
  let result1 :=
    match item.concreteName? with
    | some n => if n ∈ package_names then result else result ++ [item]
    | none => result
  if item.templateStr ∈ result1.map ItemPackageDependency.templateStr then result1
  else result1 ++ [item]

/-- `merge_unique_items` of `ros_generator.py` (lines 158-172): fold the loop
body over the `package` list, starting from the `model` list. -/
def merge_unique_items (model package : List ItemPackageDependency) :
    List ItemPackageDependency :=
  package.foldl merge_step model

/-- `merge_requirements` of `ros_generator.py` (lines 152-179). -/
def merge_requirements (model_requirements package_requirements : ConditionalRequirements) :
    ConditionalRequirements :=
  { host := merge_unique_items model_requirements.host package_requirements.host
    build := merge_unique_items model_requirements.build package_requirements.build
    run := merge_unique_items model_requirements.run package_requirements.run }

/-- Names of the concrete requirements of a list, in order
(the Python `[i.concrete.package_name for i in model if i.concrete]`). -/
def concreteNames (l : List ItemPackageDependency) : List String :=
  l.filterMap ItemPackageDependency.concreteName?

/-- Rendered texts of the template requirements of a list, in order. -/
def templateTexts (l : List ItemPackageDependency) : List String :=
  l.filterMap fun i => match i with
    | .template t => some t
    | .concrete _ => none

/-- The per-category uniqueness invariant of a Requirement Set (spec,
section 3): no two concrete requirements share a name and no two template
requirements share a rendered text. -/
def uniqueItems (l : List ItemPackageDependency) : Prop :=
  (concreteNames l).Nodup ∧ (templateTexts l).Nodup

instance (l : List ItemPackageDependency) : Decidable (uniqueItems l) :=
  inferInstanceAs (Decidable (And _ _))

theorem merge_step_eq_or (r : List ItemPackageDependency) (i : ItemPackageDependency) :
    merge_step r i = r ∨ merge_step r i = r ++ [i] := by
  unfold merge_step
  cases h : i.concreteName? with
  | some n =>
      by_cases hn : n ∈ r.filterMap ItemPackageDependency.concreteName?
      · simp only [hn, if_true]
        by_cases ht : i.templateStr ∈ r.map ItemPackageDependency.templateStr
        · simp [ht]
        · simp [ht]
      · simp only [hn, if_false]
        have hmem : i.templateStr ∈ (r ++ [i]).map ItemPackageDependency.templateStr := by
          simp
        simp [hmem]
  | none =>
      by_cases ht : i.templateStr ∈ r.map ItemPackageDependency.templateStr
      · simp [ht]
      · simp [ht]

theorem merge_unique_items_append (p m : List ItemPackageDependency) :
    ∃ s, s.Sublist p ∧ merge_unique_items m p = m ++ s := by
  induction p generalizing m with
  | nil => exact ⟨[], List.Sublist.refl _, by simp [merge_unique_items]⟩
  | cons x p ih =>
      have hstep := merge_step_eq_or m x
      cases hstep with
      | inl h =>
          obtain ⟨s, hs, he⟩ := ih m
          refine ⟨s, hs.cons x, ?_⟩
          simpa [merge_unique_items, h] using he
      | inr h =>
          obtain ⟨s, hs, he⟩ := ih (m ++ [x])
          refine ⟨x :: s, hs.cons₂ x, ?_⟩
          simp only [merge_unique_items, List.foldl_cons, h]
          simpa [List.append_assoc] using he

theorem concreteNames_append (l l' : List ItemPackageDependency) :
    concreteNames (l ++ l') = concreteNames l ++ concreteNames l' := by
  simp [concreteNames, List.filterMap_append]

theorem templateTexts_append (l l' : List ItemPackageDependency) :
    templateTexts (l ++ l') = templateTexts l ++ templateTexts l' := by
  simp [templateTexts, List.filterMap_append]

theorem mem_templateStr_of_mem_templateTexts {t : String}
    {l : List ItemPackageDependency} (h : t ∈ templateTexts l) :
    t ∈ l.map ItemPackageDependency.templateStr := by
  simp only [templateTexts, List.mem_filterMap] at h
  obtain ⟨i, hi, hit⟩ := h
  cases i with
  | concrete n => simp at hit
  | template s =>
      have hst : s = t := by simpa using hit
      subst hst
      exact List.mem_map.mpr ⟨.template s, hi, rfl⟩

theorem none_mem_templateStr_of_mem_concreteNames {n : String}
    {l : List ItemPackageDependency} (h : n ∈ concreteNames l) :
    "None" ∈ l.map ItemPackageDependency.templateStr := by
  simp only [concreteNames, List.mem_filterMap] at h
  obtain ⟨i, hi, hin⟩ := h
  cases i with
  | concrete m => exact List.mem_map.mpr ⟨.concrete m, hi, rfl⟩
  | template s => simp [ItemPackageDependency.concreteName?] at hin

theorem merge_step_concrete_mem (r : List ItemPackageDependency) (n : String)
    (hn : n ∈ concreteNames r) : merge_step r (.concrete n) = r := by
  have hn' : n ∈ r.filterMap ItemPackageDependency.concreteName? := hn
  have hNone : "None" ∈ r.map ItemPackageDependency.templateStr :=
    none_mem_templateStr_of_mem_concreteNames hn
  unfold merge_step
  simp only [ItemPackageDependency.concreteName?, ItemPackageDependency.templateStr]
  rw [if_pos hn', if_pos hNone]

theorem merge_step_concrete_not_mem (r : List ItemPackageDependency) (n : String)
    (hn : n ∉ concreteNames r) :
    merge_step r (.concrete n) = r ++ [.concrete n] := by
  have hn' : n ∉ r.filterMap ItemPackageDependency.concreteName? := hn
  have hNone : ItemPackageDependency.templateStr (.concrete n) ∈
      (r ++ [ItemPackageDependency.concrete n]).map ItemPackageDependency.templateStr := by
    simp
  unfold merge_step
  simp only [ItemPackageDependency.concreteName?]
  rw [if_neg hn', if_pos hNone]

theorem merge_step_template_mem (r : List ItemPackageDependency) (t : String)
    (ht : t ∈ r.map ItemPackageDependency.templateStr) :
    merge_step r (.template t) = r := by
  unfold merge_step
  simp only [ItemPackageDependency.concreteName?, ItemPackageDependency.templateStr]
  rw [if_pos ht]

theorem merge_step_template_not_mem (r : List ItemPackageDependency) (t : String)
    (ht : t ∉ r.map ItemPackageDependency.templateStr) :
    merge_step r (.template t) = r ++ [.template t] := by
  unfold merge_step
  simp only [ItemPackageDependency.concreteName?, ItemPackageDependency.templateStr]
  rw [if_neg ht]

theorem merge_step_unique (r : List ItemPackageDependency)
    (i : ItemPackageDependency) (h : uniqueItems r) :
    uniqueItems (merge_step r i) := by
  obtain ⟨hc, ht⟩ := h
  cases i with
  | concrete n =>
      by_cases hn : n ∈ concreteNames r
      · rw [merge_step_concrete_mem r n hn]; exact ⟨hc, ht⟩
      · rw [merge_step_concrete_not_mem r n hn]
        constructor
        · rw [concreteNames_append]
          have h1 : concreteNames [ItemPackageDependency.concrete n] = [n] := by
            simp [concreteNames, ItemPackageDependency.concreteName?]
          rw [h1, List.nodup_append]
          exact ⟨hc, List.nodup_singleton n, by simpa using hn⟩
        · rw [templateTexts_append]
          have h1 : templateTexts [ItemPackageDependency.concrete n] = [] := by
            simp [templateTexts]
          rw [h1, List.append_nil]
          exact ht
  | template t =>
      by_cases htm : t ∈ r.map ItemPackageDependency.templateStr
      · rw [merge_step_template_mem r t htm]; exact ⟨hc, ht⟩
      · rw [merge_step_template_not_mem r t htm]
        constructor
        · rw [concreteNames_append]
          have h1 : concreteNames [ItemPackageDependency.template t] = [] := by
            simp [concreteNames, ItemPackageDependency.concreteName?]
          rw [h1, List.append_nil]
          exact hc
        · rw [templateTexts_append]
          have h1 : templateTexts [ItemPackageDependency.template t] = [t] := by
            simp [templateTexts]
          rw [h1, List.nodup_append]
          refine ⟨ht, List.nodup_singleton t, ?_⟩
          have hnt : t ∉ templateTexts r := fun hmem =>
            htm (mem_templateStr_of_mem_templateTexts hmem)
          simpa using hnt

theorem merge_unique_items_unique (p m : List ItemPackageDependency)
    (h : uniqueItems m) : uniqueItems (merge_unique_items m p) := by
  induction p generalizing m with
  | nil => simpa [merge_unique_items] using h
  | cons x p ih =>
      have := ih (merge_step m x) (merge_step_unique m x h)
      simpa [merge_unique_items] using this

theorem merge_unique_items_take_drop (m p : List ItemPackageDependency) :
    (merge_unique_items m p).take m.length = m ∧
    ((merge_unique_items m p).drop m.length).Sublist p := by
  obtain ⟨s, hs, he⟩ := merge_unique_items_append p m
  rw [he]
  exact ⟨List.take_left m s, by rw [List.drop_left]; exact hs⟩

/-- Example base and computed requirement sets used to instantiate the merge
theorems on concrete inputs. -/
def exampleBaseRequirements : ConditionalRequirements :=
  { build := [.concrete "python", .template "$compiler"]
    host := [.concrete "pip"]
    run := [.concrete "python"] }

/-- Example computed requirement set used to instantiate the merge theorems
on concrete inputs. -/
def exampleComputedRequirements : ConditionalRequirements :=
  { build := [.concrete "python", .concrete "ninja", .template "$compiler"]
    host := [.concrete "pip", .concrete "numpy"]
    run := [.concrete "rclcpp", .concrete "python"] }

/-- C1: for every base requirement set whose categories each satisfy the
Requirement Set uniqueness invariant, and every computed requirement set,
`merge_requirements base computed` contains, within each category (build,
host, run), no two concrete requirements with the same package name and no
two template requirements with the same rendered text. -/
theorem merge_requirements_no_duplicates
    (base comp : ConditionalRequirements)
    (hb : uniqueItems base.build) (hh : uniqueItems base.host)
    (hr : uniqueItems base.run) :
    uniqueItems (merge_requirements base comp).build ∧
    uniqueItems (merge_requirements base comp).host ∧
    uniqueItems (merge_requirements base comp).run :=
  ⟨merge_unique_items_unique _ _ hb, merge_unique_items_unique _ _ hh,
    merge_unique_items_unique _ _ hr⟩

/-- C1 witness: the uniqueness theorem instantiated at concrete base and
computed requirement sets, with every hypothesis discharged by evaluation. -/
theorem merge_requirements_no_duplicates_witness :
    (uniqueItems exampleBaseRequirements.build ∧
      uniqueItems exampleBaseRequirements.host ∧
      uniqueItems exampleBaseRequirements.run) ∧
    (uniqueItems (merge_requirements exampleBaseRequirements exampleComputedRequirements).build ∧
      uniqueItems (merge_requirements exampleBaseRequirements exampleComputedRequirements).host ∧
      uniqueItems (merge_requirements exampleBaseRequirements exampleComputedRequirements).run) :=
  ⟨⟨by decide, by decide, by decide⟩,
    merge_requirements_no_duplicates exampleBaseRequirements exampleComputedRequirements
      (by decide) (by decide) (by decide)⟩

/-- C2: for every base and computed requirement set and each category, the
merged list starts with exactly the base list (same elements, same order,
length `len(base)`), and the entries appended after the base prefix are a
subsequence of the computed list, i.e. computed entries are added after all
base entries in their original relative order. -/
theorem merge_requirements_base_prefix (base comp : ConditionalRequirements) :
    ((merge_requirements base comp).build.take base.build.length = base.build ∧
      ((merge_requirements base comp).build.drop base.build.length).Sublist comp.build) ∧
    ((merge_requirements base comp).host.take base.host.length = base.host ∧
      ((merge_requirements base comp).host.drop base.host.length).Sublist comp.host) ∧
    ((merge_requirements base comp).run.take base.run.length = base.run ∧
      ((merge_requirements base comp).run.drop base.run.length).Sublist comp.run) :=
  ⟨merge_unique_items_take_drop base.build comp.build,
    merge_unique_items_take_drop base.host comp.host,
    merge_unique_items_take_drop base.run comp.run⟩

/-- Python `str.replace` for a single-character pattern, as used by
`dep_name.replace("_", "-")`: every occurrence of the character is
replaced. -/
def pyReplaceChar (s : String) (a b : Char) : String :=
  String.mk (s.data.map (fun c => if c = a then b else c))

/-- `isPrefixAt pat l` is true when `pat` occurs at the head of `l`. -/
def isPrefixAt : List Char → List Char → Bool
  | [], _ => true
  | _ :: _, [] => false
  | p :: ps, c :: cs => p = c && isPrefixAt ps cs

/-- `containsSub pat l` is true when `pat` occurs contiguously in `l`. -/
def containsSub (pat : List Char) : List Char → Bool
  | [] => pat.isEmpty
  | c :: cs => isPrefixAt pat (c :: cs) || containsSub pat cs

/-- The Python substring test `pat in s`. -/
def pyInStr (pat s : String) : Bool := containsSub pat.data s.data

/-- `Distro` of `distro.py`: name, distribution type from the rosdistro
index, and the set of release package names of the distribution. -/
structure Distro where
  name : String
  distribution_type : String
  release_packages : List String
deriving DecidableEq, Repr

/-- `Distro.check_ros1` (`distro.py`, lines 25-26). -/
def Distro.check_ros1 (d : Distro) : Bool := d.distribution_type == "ros1"

/-- `Distro.has_package` (`distro.py`, lines 34-37): membership in the
release package set. -/
def Distro.has_package (d : Distro) (package_name : String) : Bool :=
  d.release_packages.contains package_name

/-- One value of the robostack mapping table: either a flat ordered list of
conda package names, or a platform-keyed dictionary of such lists
(`utils.py`, lines 100-104). -/
inductive MappingEntry where
  | flat (packages : List String)
  | by_platform (packages : List (String × List String))
deriving DecidableEq, Repr

/-- Dictionary lookup `dep_name in robostack_data` /
`robostack_data[dep_name]`. -/
def lookupEntry (table : List (String × MappingEntry)) (dep_name : String) :
    Option MappingEntry :=
  (table.find? (fun kv => kv.1 == dep_name)).map Prod.snd

/-- `conda_packages` selection (`utils.py`, lines 100-104): a flat entry is
used as is; a platform-keyed entry selects the target platform list,
defaulting to the empty list (`conda_packages.get(target_platform, [])`). -/
def platform_packages (target_platform : String) : MappingEntry → List String
  | .flat l => l
  | .by_platform m =>
      ((m.find? (fun kv => kv.1 == target_platform)).map Prod.snd).getD []

/-- Virtual-marker expansion (`utils.py`, lines 108-119).  `list.remove`
removes only the first occurrence, so `List.erase` is used; appends go to
the end of the list in source order. -/
def expand_markers (target_platform : String) (conda_packages : List String) :
    List String :=
  let l1 :=
    if "REQUIRE_GL" ∈ conda_packages then
      conda_packages.erase "REQUIRE_GL"
        ++ (if pyInStr "linux" target_platform then ["libgl-devel"] else [])
    else conda_packages
  if "REQUIRE_OPENGL" ∈ l1 then
    l1.erase "REQUIRE_OPENGL"
      ++ (if pyInStr "linux" target_platform then
            ["libgl-devel", "libopengl-devel"] else [])
      ++ (if target_platform = "linux" ∨ target_platform = "osx" ∨
            target_platform = "unix" then
            ["xorg-libx11", "xorg-libxext"] else [])
  else l1

/-- The fixed set of distribution-tooling names handled before any table
lookup (`utils.py`, line 75). -/
def ros_tooling : List String :=
  ["ament_cmake", "ament_python", "rosidl_default_generators", "ros_workspace"]

/-- The synthesized distro-qualified conda name: the literal `ros-`, the
distro name, a hyphen, and the dependency name with every underscore
replaced by a hyphen (`utils.py`, lines 76 and 93). -/
def synth_ros_name (distro_name dep_name : String) : String :=
  "ros-" ++ distro_name ++ "-" ++ pyReplaceChar dep_name '_' '-'

/-- `rosdep_to_conda_package_name` of `utils.py` (lines 68-121) with the
`target_platform` local variable kept as a parameter; the source fixes it to
`"osx"` (line 72), see `rosdep_to_conda_package_name`.  The robostack table
(an external data file) is a parameter. -/
def rosdep_to_conda_with_platform (target_platform : String)
    (table : List (String × MappingEntry)) (dep_name : String)
    (distro : Distro) : List String :=
  if dep_name ∈ ros_tooling then [synth_ros_name distro.name dep_name]
  else
    match lookupEntry table dep_name with
    | none =>
        if distro.has_package dep_name then [synth_ros_name distro.name dep_name]
        else [dep_name]
    | some entry => expand_markers target_platform (platform_packages target_platform entry)

/-- `rosdep_to_conda_package_name` as the source runs it: the target
platform is hardcoded to `"osx"` (`utils.py`, line 72). -/
def rosdep_to_conda_package_name (table : List (String × MappingEntry))
    (dep_name : String) (distro : Distro) : List String :=
  rosdep_to_conda_with_platform "osx" table dep_name distro

/-- A generation-2 example distribution whose release set contains
`rclcpp`. -/
def jazzyDistro : Distro := ⟨"jazzy", "ros2", ["rclcpp"]⟩

/-- A generation-2 example distribution with an empty release set. -/
def humbleDistro : Distro := ⟨"humble", "ros2", []⟩

/-- C3: for every dependency name outside the fixed tooling set and absent
from the mapping table, the mapper returns the single synthesized
distro-qualified name when the distribution's release set contains the name,
and the single-element pass-through list otherwise. -/
theorem rosdep_mapping_fallback (table : List (String × MappingEntry))
    (dep_name : String) (distro : Distro)
    (h1 : dep_name ∉ ros_tooling) (h2 : lookupEntry table dep_name = none) :
    (distro.has_package dep_name = true →
      rosdep_to_conda_package_name table dep_name distro =
        [synth_ros_name distro.name dep_name]) ∧
    (distro.has_package dep_name = false →
      rosdep_to_conda_package_name table dep_name distro = [dep_name]) := by
  simp only [rosdep_to_conda_package_name, rosdep_to_conda_with_platform,
    if_neg h1, h2]
  constructor
  · intro h; simp [h]
  · intro h; simp [h]

/-- C3 witness: the fallback theorem instantiated with an empty table, a
release package `rclcpp` of the `jazzy` distribution, and an untracked
library name. -/
theorem rosdep_mapping_fallback_witness :
    ("rclcpp" ∉ ros_tooling) ∧ lookupEntry [] "rclcpp" = none ∧
    rosdep_to_conda_package_name [] "rclcpp" jazzyDistro = ["ros-jazzy-rclcpp"] ∧
    ("libfoo" ∉ ros_tooling) ∧
    rosdep_to_conda_package_name [] "libfoo" jazzyDistro = ["libfoo"] := by
  refine ⟨by decide, rfl, ?_, by decide, ?_⟩
  · rw [(rosdep_mapping_fallback [] "rclcpp" jazzyDistro (by decide) rfl).1 (by decide)]
    decide
  · exact (rosdep_mapping_fallback [] "libfoo" jazzyDistro (by decide) rfl).2 (by decide)

theorem expand_markers_gl (l : List String) (h3 : l.count "REQUIRE_GL" = 1) :
    "libgl-devel" ∈ expand_markers "linux" l ∧
    "REQUIRE_GL" ∉ expand_markers "linux" l := by
  have hmem : "REQUIRE_GL" ∈ l := List.count_pos_iff.mp (by omega)
  have hng : "REQUIRE_GL" ∉ l.erase "REQUIRE_GL" := by
    have h2' : (l.erase "REQUIRE_GL").count "REQUIRE_GL" = 0 := by
      rw [List.count_erase_self, h3]
    exact fun hm => by simp [List.count_eq_zero.mp h2'] at hm
  have hlin : pyInStr "linux" "linux" = true := by decide
  have hngl1 : "REQUIRE_GL" ∉ l.erase "REQUIRE_GL" ++ ["libgl-devel"] := by
    intro hcon
    rcases List.mem_append.mp hcon with h | h
    · exact hng h
    · simp at h
  simp only [expand_markers, if_pos hmem, hlin, if_true]
  split
  · constructor
    · refine List.mem_append.mpr (Or.inl (List.mem_append.mpr (Or.inr ?_)))
      simp
    · intro hcon
      rcases List.mem_append.mp hcon with h | h
      · rcases List.mem_append.mp h with h' | h'
        · exact hngl1 (List.mem_of_mem_erase h')
        · simp at h'
      · simp at h
  · exact ⟨List.mem_append.mpr (Or.inr (by simp)), hngl1⟩

/-- A mapping table whose entry for `glfw` carries the requires-GL marker
twice; used to exhibit that `list.remove` drops only the first
occurrence. -/
def doubleGlTable : List (String × MappingEntry) :=
  [("glfw", MappingEntry.flat ["REQUIRE_GL", "REQUIRE_GL"])]

/-- C4 counterexample: with a table entry containing the requires-GL marker
twice, mapping on a Linux target leaves a residual `REQUIRE_GL` token in the
result, contradicting the claim that the result contains no residual marker
token. -/
theorem require_gl_residual_counterexample :
    "REQUIRE_GL" ∈ rosdep_to_conda_with_platform "linux" doubleGlTable "glfw" humbleDistro ∧
    "libgl-devel" ∈ rosdep_to_conda_with_platform "linux" doubleGlTable "glfw" humbleDistro := by
  decide

/-- C4 (amended): for every dependency name outside the fixed tooling set
whose flat mapping-table entry contains the requires-GL marker exactly once,
mapping with a Linux target platform yields a list that contains
`libgl-devel` and no residual `REQUIRE_GL` token. -/
theorem require_gl_expansion (table : List (String × MappingEntry))
    (dep_name : String) (distro : Distro) (l : List String)
    (h1 : dep_name ∉ ros_tooling)
    (h2 : lookupEntry table dep_name = some (MappingEntry.flat l))
    (h3 : l.count "REQUIRE_GL" = 1) :
    "libgl-devel" ∈ rosdep_to_conda_with_platform "linux" table dep_name distro ∧
    "REQUIRE_GL" ∉ rosdep_to_conda_with_platform "linux" table dep_name distro := by
  simp only [rosdep_to_conda_with_platform, if_neg h1, h2]
  exact expand_markers_gl l h3

/-- C4 witness: the amended theorem instantiated at a one-entry table whose
`gl_dep` entry holds the marker exactly once. -/
theorem require_gl_expansion_witness :
    ("gl_dep" ∉ ros_tooling) ∧
    lookupEntry [("gl_dep", MappingEntry.flat ["REQUIRE_GL", "libx11"])] "gl_dep" =
      some (MappingEntry.flat ["REQUIRE_GL", "libx11"]) ∧
    (["REQUIRE_GL", "libx11"].count "REQUIRE_GL" = 1) ∧
    ("libgl-devel" ∈ rosdep_to_conda_with_platform "linux"
        [("gl_dep", MappingEntry.flat ["REQUIRE_GL", "libx11"])] "gl_dep" humbleDistro ∧
      "REQUIRE_GL" ∉ rosdep_to_conda_with_platform "linux"
        [("gl_dep", MappingEntry.flat ["REQUIRE_GL", "libx11"])] "gl_dep" humbleDistro) :=
  ⟨by decide, by decide, by decide,
    require_gl_expansion [("gl_dep", MappingEntry.flat ["REQUIRE_GL", "libx11"])]
      "gl_dep" humbleDistro ["REQUIRE_GL", "libx11"] (by decide) (by decide) (by decide)⟩

/-- A mapping table whose flat entry consists of a single requires-GL
marker. -/
def markerFlatTable : List (String × MappingEntry) :=
  [("libglvnd", MappingEntry.flat ["REQUIRE_GL"])]

/-- C5 counterexample: a flat table entry containing a virtual marker is not
returned unchanged — on the hardcoded `osx` target the marker is removed and
nothing replaces it, so the result differs from the table list. -/
theorem flat_entry_changed_counterexample :
    rosdep_to_conda_package_name markerFlatTable "libglvnd" humbleDistro ≠
      ["REQUIRE_GL"] := by
  decide

/-- C5 (amended): for every dependency name outside the fixed tooling set
(step 1 of the mapper consumes tooling names before the table is consulted)
whose table entry is a flat list containing neither virtual marker, the
mapper returns that list unchanged for every pair of distributions. -/
theorem flat_entry_returned_unchanged (table : List (String × MappingEntry))
    (dep_name : String) (l : List String) (d1 d2 : Distro)
    (h1 : dep_name ∉ ros_tooling)
    (h2 : lookupEntry table dep_name = some (MappingEntry.flat l))
    (h3 : "REQUIRE_GL" ∉ l) (h4 : "REQUIRE_OPENGL" ∉ l) :
    rosdep_to_conda_package_name table dep_name d1 = l ∧
    rosdep_to_conda_package_name table dep_name d2 = l := by
  have key : ∀ d : Distro, rosdep_to_conda_package_name table dep_name d = l := by
    intro d
    simp only [rosdep_to_conda_package_name, rosdep_to_conda_with_platform,
      if_neg h1, h2]
    simp only [platform_packages, expand_markers, if_neg h3, if_neg h4]
  exact ⟨key d1, key d2⟩

/-- C5 witness: the amended theorem at a marker-free flat entry and two
different distributions. -/
theorem flat_entry_returned_unchanged_witness :
    ("eigen" ∉ ros_tooling) ∧
    lookupEntry [("eigen", MappingEntry.flat ["eigen"])] "eigen" =
      some (MappingEntry.flat ["eigen"]) ∧
    ("REQUIRE_GL" ∉ ["eigen"]) ∧ ("REQUIRE_OPENGL" ∉ ["eigen"]) ∧
    (rosdep_to_conda_package_name [("eigen", MappingEntry.flat ["eigen"])]
        "eigen" jazzyDistro = ["eigen"] ∧
      rosdep_to_conda_package_name [("eigen", MappingEntry.flat ["eigen"])]
        "eigen" humbleDistro = ["eigen"]) :=
  ⟨by decide, by decide, by decide, by decide,
    flat_entry_returned_unchanged [("eigen", MappingEntry.flat ["eigen"])]
      "eigen" ["eigen"] jazzyDistro humbleDistro
      (by decide) (by decide) (by decide) (by decide)⟩

/-- Template selection of `BuildScriptContext.load_from_template`
(`build_script.py`, lines 42-52): the build-type string picks a template
file name, and an unrecognized build type raises
`ValueError(f"Unsupported build type: ...")` — the spec's
`UnsupportedBuildTypeError`.  Reading the template file itself is external
file I/O and is outside this embedding. -/
def load_from_template (build_type : String) : Except String String :=
  if build_type = "ament_cmake" then Except.ok "build_ament_cmake.sh.in"
  else if build_type = "ament_python" then Except.ok "build_ament_python.sh.in"
  else if build_type = "cmake" ∨ build_type = "catkin" then
    Except.ok "build_catkin.sh.in"
  else Except.error ("Unsupported build type: " ++ build_type)

/-- C7: template selection fails with the unsupported-build-type error for
every build kind outside the recognized set, producing no script template,
and succeeds (does not raise) for every build kind inside the set. -/
theorem unsupported_build_type (build_type : String) :
    (build_type ∉ ["ament_cmake", "ament_python", "cmake", "catkin"] →
      load_from_template build_type =
        Except.error ("Unsupported build type: " ++ build_type)) ∧
    (build_type ∈ ["ament_cmake", "ament_python", "cmake", "catkin"] →
      ∃ t, load_from_template build_type = Except.ok t) := by
  constructor
  · intro h
    simp only [List.mem_cons, List.not_mem_nil, or_false, not_or] at h
    obtain ⟨h1, h2, h3, h4⟩ := h
    simp [load_from_template, h1, h2, h3, h4]
  · intro h
    simp only [List.mem_cons, List.not_mem_nil, or_false] at h
    rcases h with h | h | h | h <;> subst h <;> exact ⟨_, rfl⟩

/-- C7 witness: the selection theorem evaluated at a recognized and at an
unrecognized build kind. -/
theorem unsupported_build_type_witness :
    ("ament_cmake" ∈ ["ament_cmake", "ament_python", "cmake", "catkin"]) ∧
    (∃ t, load_from_template "ament_cmake" = Except.ok t) ∧
    ("meson" ∉ ["ament_cmake", "ament_python", "cmake", "catkin"]) ∧
    load_from_template "meson" = Except.error ("Unsupported build type: " ++ "meson") :=
  ⟨by decide, (unsupported_build_type "ament_cmake").2 (by decide),
    by decide, (unsupported_build_type "meson").1 (by decide)⟩

/-- The debug-snapshot step of `ROSGenerator.generate_recipe`
(`ros_generator.py`, lines 132-138): when a debug directory is configured
the recipe is written to it with no exception handler, so a failing write
propagates as the result of the whole step; when no debug directory is
configured the completed recipe is returned. -/
def write_debug_snapshot (debug_dir : Option String)
    (write : String → Except String Unit)
    (recipe : ConditionalRequirements) : Except String ConditionalRequirements :=
  match debug_dir with
  | none => Except.ok recipe
  | some d =>
      match write d with
      | Except.ok _ => Except.ok recipe
      | Except.error e => Except.error e

/-- C8: evaluating the debug-snapshot step with a configured debug directory
and a write that fails with a permission error shows that the failure
propagates and generation does not return the completed recipe — the source
has no handler around the write, contradicting the claim (and spec section
7) that debug-write failures are non-fatal. -/
theorem debug_write_failure_aborts :
    write_debug_snapshot (some "/no-access/debug")
        (fun _ => Except.error "PermissionError") exampleBaseRequirements =
      Except.error "PermissionError" ∧
    write_debug_snapshot (some "/no-access/debug")
        (fun _ => Except.error "PermissionError") exampleBaseRequirements ≠
      Except.ok exampleBaseRequirements := by
  refine ⟨rfl, ?_⟩
  intro h
  rw [show write_debug_snapshot (some "/no-access/debug")
      (fun _ => Except.error "PermissionError") exampleBaseRequirements =
      Except.error "PermissionError" from rfl] at h
  exact Except.noConfusion h

/-- A dependency declaration of a parsed `package.xml`: name and evaluated
condition (spec, section 3, Dependency Declaration). -/
structure Dependency where
  name : String
  evaluated_condition : Bool
deriving DecidableEq, Repr

/-- A parsed manifest restricted to its six dependency category lists
(`catkin_pkg` `Package` attributes used by `utils.py`). -/
structure CatkinPackage where
  buildtool_depends : List Dependency := []
  buildtool_export_depends : List Dependency := []
  build_depends : List Dependency := []
  build_export_depends : List Dependency := []
  run_depends : List Dependency := []
  exec_depends : List Dependency := []
deriving DecidableEq, Repr

/-- The list comprehension `[d.name for d in deps if d.evaluated_condition]`. -/
def evaluated_names (deps : List Dependency) : List String :=
  (deps.filter (fun d => d.evaluated_condition)).map (fun d => d.name)

/-- Helper for `pyDedup`: keeps the elements not yet seen, first occurrence
first. -/
def pyDedupAux (seen : List String) : List String → List String
  | [] => []
  | x :: xs =>
      if seen.contains x then pyDedupAux seen xs
      else x :: pyDedupAux (x :: seen) xs

/-- Order-preserving deduplication keeping the first occurrence: the Python
idiom `list(dict.fromkeys(...))` (`utils.py`, lines 140 and 148). -/
def pyDedup (l : List String) : List String := pyDedupAux [] l

theorem mem_pyDedupAux {a : String} :
    ∀ (l seen : List String), a ∈ pyDedupAux seen l ↔ (a ∈ l ∧ a ∉ seen) := by
  intro l
  induction l with
  | nil => intro seen; simp [pyDedupAux]
  | cons x xs ih =>
      intro seen
      by_cases hs : seen.contains x
      · rw [pyDedupAux, if_pos hs, ih]
        have hxs : x ∈ seen := by simpa using hs
        constructor
        · rintro ⟨h1, h2⟩; exact ⟨List.mem_cons.mpr (Or.inr h1), h2⟩
        · rintro ⟨h1, h2⟩
          rcases List.mem_cons.mp h1 with h | h
          · exact absurd (h ▸ hxs) h2
          · exact ⟨h, h2⟩
      · rw [pyDedupAux, if_neg hs, List.mem_cons, ih]
        have hxs : x ∉ seen := by simpa using hs
        constructor
        · rintro (h | ⟨h1, h2⟩)
          · exact ⟨List.mem_cons.mpr (Or.inl h), h ▸ hxs⟩
          · refine ⟨List.mem_cons.mpr (Or.inr h1),
              fun hc => h2 (List.mem_cons_of_mem _ hc)⟩
        · rintro ⟨h1, h2⟩
          rcases List.mem_cons.mp h1 with h | h
          · exact Or.inl h
          · by_cases hax : a = x
            · exact Or.inl hax
            · exact Or.inr ⟨h, by simp [hax, h2]⟩

theorem mem_pyDedup {a : String} {l : List String} : a ∈ pyDedup l ↔ a ∈ l := by
  simp [pyDedup, mem_pyDedupAux]

/-- Modelled from the spec: constructing an `ItemPackageDependency` from a
source string (the FFI constructor applied in `utils.py` line 150-151 and
`ros_generator.py` lines 104-113, whose class source is not in this
repository snapshot) yields a template requirement when the string is a
parametrized expression — it contains the template opener `$\x7b\x7b` — and
a concrete requirement otherwise (spec, section 3, Package Requirement). -/
def itemFromName (s : String) : ItemPackageDependency :=
  if pyInStr "$\x7b\x7b" s then .template s else .concrete s

/-- The aggregated build-side dependency names of
`package_xml_to_conda_requirements` (`utils.py`, lines 130-138): the four
build-side categories filtered by evaluated condition, then the
`ros_workspace` default appended for non-ros1 distributions. -/
def build_dep_names (pkg : CatkinPackage) (distro : Distro) : List String :=
  evaluated_names (pkg.buildtool_depends ++ pkg.buildtool_export_depends ++
      pkg.build_depends ++ pkg.build_export_depends) ++
    (if distro.check_ros1 then [] else ["ros_workspace"])

/-- The aggregated run-side dependency names (`utils.py`, lines 142-146). -/
def run_dep_names (pkg : CatkinPackage) : List String :=
  evaluated_names (pkg.run_depends ++ pkg.exec_depends ++
    pkg.build_export_depends ++ pkg.buildtool_export_depends)

/-- Mapped and first-occurrence-deduplicated conda build dependency names
(`utils.py`, lines 139-140). -/
def conda_build_dep_names (table : List (String × MappingEntry))
    (pkg : CatkinPackage) (distro : Distro) : List String :=
  pyDedup (((build_dep_names pkg distro).map
    (fun dep => rosdep_to_conda_package_name table dep distro)).flatten)

/-- Mapped and first-occurrence-deduplicated conda run dependency names
(`utils.py`, lines 147-148). -/
def conda_run_dep_names (table : List (String × MappingEntry))
    (pkg : CatkinPackage) (distro : Distro) : List String :=
  pyDedup (((run_dep_names pkg).map
    (fun dep => rosdep_to_conda_package_name table dep distro)).flatten)

/-- `package_xml_to_conda_requirements` (`utils.py`, lines 123-160).  The
returned pair is the `ConditionalRequirements` result together with the
state of the package after the call: the source aliases
`build_deps = pkg.buildtool_depends` and `run_deps = pkg.run_depends` and
extends them with `+=`, so `pkg.buildtool_depends` and `pkg.run_depends` are
mutated in place; the second component makes that mutation explicit. -/
def package_xml_to_conda_requirements (table : List (String × MappingEntry))
    (pkg : CatkinPackage) (distro : Distro) :
    ConditionalRequirements × CatkinPackage :=
  let build_requirements := (conda_build_dep_names table pkg distro).map itemFromName
  let run_requirements := (conda_run_dep_names table pkg distro).map itemFromName
  ({ host := build_requirements
     build := build_requirements
     run := run_requirements },
   { pkg with
      buildtool_depends := pkg.buildtool_depends ++ pkg.buildtool_export_depends ++
        pkg.build_depends ++ pkg.build_export_depends
      run_depends := pkg.run_depends ++ pkg.exec_depends ++
        pkg.build_export_depends ++ pkg.buildtool_export_depends })

theorem mem_conda_build_dep_names {name : String}
    (table : List (String × MappingEntry)) (pkg : CatkinPackage) (distro : Distro) :
    name ∈ conda_build_dep_names table pkg distro ↔
    ∃ d ∈ build_dep_names pkg distro,
      name ∈ rosdep_to_conda_package_name table d distro := by
  simp only [conda_build_dep_names, mem_pyDedup, List.mem_flatten, List.mem_map]
  constructor
  · rintro ⟨l, ⟨d, hd, rfl⟩, hl⟩
    exact ⟨d, hd, hl⟩
  · rintro ⟨d, hd, h⟩
    exact ⟨_, ⟨d, hd, rfl⟩, h⟩

theorem rosdep_ros_workspace (table : List (String × MappingEntry)) (distro : Distro) :
    rosdep_to_conda_package_name table "ros_workspace" distro =
      [synth_ros_name distro.name "ros_workspace"] := by
  unfold rosdep_to_conda_package_name rosdep_to_conda_with_platform
  rw [if_pos (by decide : ("ros_workspace" : String) ∈ ros_tooling)]

/-- The manifest with no dependency declarations. -/
def emptyPackage : CatkinPackage := {}

/-- The generation-1 distribution `noetic`. -/
def noeticDistro : Distro := ⟨"noetic", "ros1", []⟩

/-- A manifest that itself declares `ros_workspace` as a build
dependency. -/
def workspacePackage : CatkinPackage :=
  { build_depends := [⟨"ros_workspace", true⟩] }

/-- C6 counterexample: for the generation-1 distribution `noetic` and a
manifest that declares `ros_workspace` itself, the extracted build names do
contain the mapped workspace marker, refuting the claimed equivalence
"included iff the distribution is not generation-1" for every manifest. -/
theorem workspace_marker_ros1_counterexample :
    noeticDistro.check_ros1 = true ∧
    "ros-noetic-ros-workspace" ∈ conda_build_dep_names [] workspacePackage noeticDistro := by
  decide

/-- C6 (amended): for every manifest, the extracted build names contain the
mapped workspace marker whenever the distribution is not generation-1; for a
generation-1 distribution they contain it exactly when some declared
build-side dependency with true condition itself maps to the marker name
(for example `ros_workspace` declared in the manifest). -/
theorem workspace_marker_in_build (table : List (String × MappingEntry))
    (pkg : CatkinPackage) (distro : Distro) :
    (distro.check_ros1 = false →
      synth_ros_name distro.name "ros_workspace" ∈
        conda_build_dep_names table pkg distro) ∧
    (distro.check_ros1 = true →
      (synth_ros_name distro.name "ros_workspace" ∈
          conda_build_dep_names table pkg distro ↔
        ∃ d ∈ evaluated_names (pkg.buildtool_depends ++ pkg.buildtool_export_depends ++
            pkg.build_depends ++ pkg.build_export_depends),
          synth_ros_name distro.name "ros_workspace" ∈
            rosdep_to_conda_package_name table d distro)) := by
  constructor
  · intro h
    rw [mem_conda_build_dep_names]
    refine ⟨"ros_workspace", ?_, ?_⟩
    · simp [build_dep_names, h]
    · rw [rosdep_ros_workspace]
      simp
  · intro h
    rw [mem_conda_build_dep_names]
    simp [build_dep_names, h]

/-- C6 witness: the spec scenario — for the generation-2 distribution
`jazzy` even the empty manifest's extracted build names contain
`ros-jazzy-ros-workspace`. -/
theorem workspace_marker_in_build_witness :
    jazzyDistro.check_ros1 = false ∧
    "ros-jazzy-ros-workspace" ∈ conda_build_dep_names [] emptyPackage jazzyDistro := by
  refine ⟨by decide, ?_⟩
  have h := (workspace_marker_in_build [] emptyPackage jazzyDistro).1 (by decide)
  exact (by decide :
    synth_ros_name jazzyDistro.name "ros_workspace" = "ros-jazzy-ros-workspace") ▸ h

/-- A manifest with one build dependency and one exec dependency, used to
evaluate the extractor's in-place mutation of the manifest. -/
def mutationPackage : CatkinPackage :=
  { build_depends := [⟨"ament_cmake", true⟩]
    exec_depends := [⟨"rclcpp", true⟩] }

/-- C9: evaluating `package_xml_to_conda_requirements` at a concrete
manifest shows that the call mutates the manifest: the source's
`build_deps = pkg.buildtool_depends` / `build_deps += ...` and
`run_deps = pkg.run_depends` / `run_deps += ...` extend
`pkg.buildtool_depends` and `pkg.run_depends` in place, so after the call
those category lists no longer hold the declarations they held before,
contradicting the claim (and spec section 3) that the manifest is read-only
to this core. -/
theorem extraction_mutates_manifest :
    (package_xml_to_conda_requirements [] mutationPackage jazzyDistro).2.buildtool_depends =
      [⟨"ament_cmake", true⟩] ∧
    mutationPackage.buildtool_depends = [] ∧
    (package_xml_to_conda_requirements [] mutationPackage jazzyDistro).2.run_depends =
      [⟨"rclcpp", true⟩] ∧
    mutationPackage.run_depends = [] ∧
    (package_xml_to_conda_requirements [] mutationPackage jazzyDistro).2 ≠
      mutationPackage := by
  decide

/-- The host platform flags consumed by `generate_recipe`
(`ros_generator.py`, lines 96-101). -/
structure Platform where
  is_unix : Bool
  is_windows : Bool
  is_osx : Bool
deriving DecidableEq, Repr

/-- A Unix host platform. -/
def unixPlatform : Platform := ⟨true, false, false⟩

/-- The baseline build dependencies appended by `generate_recipe`
(`ros_generator.py`, lines 95-101): the fixed list plus the
platform-conditional extras. -/
def standard_build_deps (host_platform : Platform) : List String :=
  ["ninja", "python", "setuptools", "git", "git-lfs", "cmake", "cpython"]
    ++ (if host_platform.is_unix then ["patch", "make", "coreutils"] else [])
    ++ (if host_platform.is_windows then ["m2-patch"] else [])
    ++ (if host_platform.is_osx then ["tapi"] else [])

/-- The baseline host dependencies appended by `generate_recipe`
(`ros_generator.py`, line 110). -/
def standard_host_deps : List String := ["python", "numpy", "pip", "pkg-config"]

/-- The C compiler reference template appended by `generate_recipe`
(`ros_generator.py`, line 107). -/
def compiler_c_template : ItemPackageDependency :=
  itemFromName "$\x7b\x7b compiler(\x27c\x27) \x7d\x7d"

/-- The C++ compiler reference template appended by `generate_recipe`
(`ros_generator.py`, line 108). -/
def compiler_cxx_template : ItemPackageDependency :=
  itemFromName "$\x7b\x7b compiler(\x27cxx\x27) \x7d\x7d"

/-- The standard-dependency phase of `generate_recipe` (`ros_generator.py`,
lines 95-113) under the Requirement Set model: baseline build dependencies
and the two compiler templates are appended to the build category, baseline
host dependencies to the host category. -/
def add_standard_requirements (host_platform : Platform)
    (package_requirements : ConditionalRequirements) : ConditionalRequirements :=
  { package_requirements with
    build := package_requirements.build ++
      (standard_build_deps host_platform).map itemFromName ++
      [compiler_c_template, compiler_cxx_template]
    host := package_requirements.host ++ standard_host_deps.map itemFromName }

/-- C10 counterexample: under the Requirement Set model (three independent
ordered sequences), after the orchestrator's append phase the baseline host
dependency `numpy` is in the host category but not in the build category,
and the baseline build dependency `ninja` is in build but not in host — the
categories do not stay element-wise identical under later appends. -/
theorem host_build_not_aliased_counterexample :
    itemFromName "numpy" ∈ (add_standard_requirements unixPlatform
      (package_xml_to_conda_requirements [] emptyPackage noeticDistro).1).host ∧
    itemFromName "numpy" ∉ (add_standard_requirements unixPlatform
      (package_xml_to_conda_requirements [] emptyPackage noeticDistro).1).build ∧
    itemFromName "ninja" ∈ (add_standard_requirements unixPlatform
      (package_xml_to_conda_requirements [] emptyPackage noeticDistro).1).build ∧
    itemFromName "ninja" ∉ (add_standard_requirements unixPlatform
      (package_xml_to_conda_requirements [] emptyPackage noeticDistro).1).host := by
  decide

/-- C10 (amended): at extraction time the host category is set equal (as a
value) to the build category, and under the Requirement Set model the
orchestrator's later appends are independent per category: the build result
is the extracted build list followed by the baseline build dependencies and
the two compiler templates, while the host result is the extracted build
list followed by the baseline host dependencies only. -/
theorem host_build_value_semantics (table : List (String × MappingEntry))
    (pkg : CatkinPackage) (distro : Distro) (host_platform : Platform) :
    (package_xml_to_conda_requirements table pkg distro).1.host =
      (package_xml_to_conda_requirements table pkg distro).1.build ∧
    (add_standard_requirements host_platform
        (package_xml_to_conda_requirements table pkg distro).1).build =
      (package_xml_to_conda_requirements table pkg distro).1.build ++
        (standard_build_deps host_platform).map itemFromName ++
        [compiler_c_template, compiler_cxx_template] ∧
    (add_standard_requirements host_platform
        (package_xml_to_conda_requirements table pkg distro).1).host =
      (package_xml_to_conda_requirements table pkg distro).1.build ++
        standard_host_deps.map itemFromName :=
  ⟨rfl, rfl, rfl⟩
